import Mathlib

/-!
Verification development for the pharma-affiliation paper fetcher
(`src/arxiv.py`).  The Python source is shallowly embedded: each Python
function of interest becomes a Lean definition with the same name where
possible, Python `None` is modelled by `Option`, a raised exception that
is caught by the surrounding `try`/`except` (dropping the entry) is
modelled by an `Option` result being `none`, and Python dictionaries with
possibly-absent keys are modelled by records with `Option` fields (outer
`none` = key absent).
-/

/-! ## Text primitives (Python string semantics, ASCII fragment) -/

/-- Python `\w` word character (ASCII fragment): letters, digits, underscore. -/
def isWordChar (c : Char) : Bool := c.isAlphanum || c = '_'

/-- Python `\s` whitespace character (ASCII fragment). -/
def isSpaceChar (c : Char) : Bool :=
  c = ' ' || c = '\t' || c = '\n' || c = '\r' || c = '\x0b' || c = '\x0c'

/-- Python `str.lower` (ASCII fragment). -/
def lowerStr (s : String) : String := String.mk (s.data.map Char.toLower)

/-- Python `str.strip()` (ASCII whitespace fragment). -/
def pyStrip (s : String) : String :=
  String.mk (((s.data.dropWhile isSpaceChar).reverse.dropWhile isSpaceChar).reverse)

/-- Rendering of a Python value that is either a `str` or `None` inside an
f-string: `None` prints as `"None"`. -/
def pyToStr : Option String → String
  | none => "None"
  | some s => s

/-- Python substring test `needle in hay` on char lists. -/
def listContainsSub (needle : List Char) : List Char → Bool
  | [] => needle.isEmpty
  | c :: rest => needle.isPrefixOf (c :: rest) || listContainsSub needle rest

/-- Python substring test `needle in hay` on strings. -/
def containsSub (needle hay : String) : Bool := listContainsSub needle.data hay.data

/-! ## The classifier's fixed vocabulary (`ResearchPaperFetcher.__init__`) -/

/-- `self.pharma_biotech_companies` from the source, in source order.  The
Python value is a set used only for membership scans, so a list is an
adequate model. -/
def pharma_biotech_companies : List String :=
  [ "pfizer", "moderna", "johnson & johnson", "j&j", "roche", "novartis", "merck",
    "gsk", "glaxosmithkline", "sanofi", "bayer", "abbvie", "bristol myers squibb",
    "bms", "astrazeneca", "eli lilly", "lilly", "boehringer ingelheim", "takeda",
    "gilead", "amgen", "biogen", "celgene", "regeneron", "vertex", "alexion",
    "genentech", "illumina", "thermo fisher", "agilent", "waters", "bio-rad",
    "qiagen", "invitrogen", "applied biosystems", "becton dickinson", "bd",
    "danaher", "medtronic", "abbott", "stryker", "intuitive surgical",
    "biontech", "curevac", "translate bio", "arcturus", "novavax",
    "pharmaceuticals", "pharmaceutical", "biotech", "biotechnology", "biopharmaceutical",
    "biopharma", "life sciences", "drug discovery", "therapeutics", "pharma",
    "medicines", "clinical research", "pharmaceutical research", "drug development",
    "medicinal chemistry", "pharmaceutical sciences" ]

/-- The secondary keyword list guarding the pattern tier
(`is_pharma_biotech_affiliation`, lines 74-75). -/
def secondary_keywords : List String :=
  ["pharma", "biotech", "therapeutic", "medicine", "drug", "clinical"]

/-! ## The regex patterns of `self.company_patterns`

Each Python pattern is embedded as a decidable search function with
`re.search` semantics.  Word boundaries are handled by scanning every
start position together with the preceding character. -/

/-- `\b` before a word character: true when at string start or after a
non-word character. -/
def boundaryBefore : Option Char → Bool
  | none => true
  | some c => !isWordChar c

/-- `\b` after a word character: true at string end or before a non-word
character. -/
def boundaryAfterList : List Char → Bool
  | [] => true
  | c :: _ => !isWordChar c

/-- Consume a non-empty maximal run of characters satisfying `p`; `none`
if the first character does not satisfy `p`.  This is the only munching
a `p+` character-class needs here, because every pattern follows such a
run with a character the class rejects. -/
def dropRun1 (p : Char → Bool) : List Char → Option (List Char)
  | [] => none
  | c :: rest => if p c then some (rest.dropWhile p) else none

/-- `s?\b` / `\b` after a literal word: the bare boundary, or (when
`optS`) a literal `s` followed by a boundary. -/
def optSBoundary (optS : Bool) (t : List Char) : Bool :=
  boundaryAfterList t ||
    (optS && match t with
      | c :: t2 => c = 's' && boundaryAfterList t2
      | [] => false)

/-- Try a position-local matcher at every position of the string,
tracking the previous character for boundary tests. -/
def scanMatch (f : Option Char → List Char → Bool) : Option Char → List Char → Bool
  | prev, [] => f prev []
  | prev, c :: rest => f prev (c :: rest) || scanMatch f (some c) rest

/-- `re.search` for a pattern of shape `\b\w+\s+CORE s?\b` (with `s?`
only when `optS`), e.g. `\b\w+\s+pharmaceuticals?\b`. -/
def pat_word_core (core : String) (optS : Bool) (s : String) : Bool :=
  scanMatch (fun prev t =>
    boundaryBefore prev &&
      (match dropRun1 isWordChar t with
       | none => false
       | some t1 =>
         match dropRun1 isSpaceChar t1 with
         | none => false
         | some t2 =>
           core.data.isPrefixOf t2 && optSBoundary optS (t2.drop core.data.length)))
    none s.data

/-- `re.search` for `\b\w+\s+life\s+sciences?\b`. -/
def pat_word_life_sciences (s : String) : Bool :=
  scanMatch (fun prev t =>
    boundaryBefore prev &&
      (match dropRun1 isWordChar t with
       | none => false
       | some t1 =>
         match dropRun1 isSpaceChar t1 with
         | none => false
         | some t2 =>
           "life".data.isPrefixOf t2 &&
             (match dropRun1 isSpaceChar (t2.drop 4) with
              | none => false
              | some t3 =>
                "science".data.isPrefixOf t3 && optSBoundary true (t3.drop 7))))
    none s.data

/-- `re.search` for a pattern of shape `\bLIT\.?\b` (with the optional
dot only when `optDot`), e.g. `\binc\.?\b`, `\bcompany\b`.  The dot
branch of `\.?\b` succeeds only when the dot is followed by a word
character (a boundary right after a non-word `.` needs one). -/
def pat_lit_dot (lit : String) (optDot : Bool) (s : String) : Bool :=
  scanMatch (fun prev t =>
    boundaryBefore prev && lit.data.isPrefixOf t &&
      (let rest := t.drop lit.data.length
       boundaryAfterList rest ||
         (optDot && match rest with
           | '.' :: r2 => (match r2 with
             | c :: _ => isWordChar c
             | [] => false)
           | _ => false)))
    none s.data

/-- `self.company_patterns`, in source order. -/
def company_patterns : List (String → Bool) :=
  [ pat_word_core "pharmaceutical" true,
    pat_word_core "biotech" false,
    pat_word_core "therapeutic" true,
    pat_word_core "biopharma" false,
    pat_word_life_sciences,
    pat_word_core "medicine" true,
    pat_lit_dot "inc" true,
    pat_lit_dot "corp" true,
    pat_lit_dot "ltd" true,
    pat_lit_dot "co" true,
    pat_lit_dot "company" false ]

/-! ## The affiliation classifier -/

/-- `ResearchPaperFetcher.is_pharma_biotech_affiliation` (lines 58-78).
The Python pattern loop returns true on the first pattern that matches
when additionally some secondary keyword occurs; since the keyword test
does not depend on the pattern, the loop is `any` of the conjunction. -/
def is_pharma_biotech_affiliation (affiliation : String) : Bool :=
  if affiliation = "" then false
  else
    let affiliation_lower := lowerStr affiliation
    if pharma_biotech_companies.any (fun company => containsSub company affiliation_lower) then
      true
    else if company_patterns.any (fun pat =>
        pat affiliation_lower &&
          secondary_keywords.any (fun keyword => containsSub keyword affiliation_lower)) then
      true
    else false


/-! ## XML element model (`xml.etree.ElementTree` fragment) -/

/-- An XML element: tag, attributes, text (Python `elem.text`, `None`
when absent), and child elements in document order. -/
inductive Xml where
  | node (tag : String) (attrs : List (String × String)) (text : Option String)
      (children : List Xml)

def Xml.tag : Xml → String
  | .node t _ _ _ => t

def Xml.attrs : Xml → List (String × String)
  | .node _ a _ _ => a

def Xml.text : Xml → Option String
  | .node _ _ t _ => t

def Xml.children : Xml → List Xml
  | .node _ _ _ c => c

/-- `elem.get(key, default)`. -/
def Xml.get (x : Xml) (key dflt : String) : String :=
  match x.attrs.lookup key with
  | some v => v
  | none => dflt

mutual

/-- All proper descendants of an element, in document (preorder) order:
the semantics of the ElementTree path prefix `.//`. -/
def Xml.descendants : Xml → List Xml
  | .node _ _ _ cs => descendantsList cs

def descendantsList : List Xml → List Xml
  | [] => []
  | c :: cs => c :: Xml.descendants c ++ descendantsList cs

end

/-- `elem.find(tag)`: first direct child with the given tag. -/
def findChild (tag : String) (x : Xml) : Option Xml :=
  x.children.find? (fun c => c.tag == tag)

/-- `elem.findall(tag)`: all direct children with the given tag. -/
def findChildren (tag : String) (x : Xml) : List Xml :=
  x.children.filter (fun c => c.tag == tag)

/-- `elem.find('.//tag')`: first descendant with the given tag. -/
def findDesc (tag : String) (x : Xml) : Option Xml :=
  (x.descendants.filter (fun c => c.tag == tag)).head?

/-- `elem.findall('.//tag')`: all descendants with the given tag. -/
def findAllDesc (tag : String) (x : Xml) : List Xml :=
  x.descendants.filter (fun c => c.tag == tag)

/-! ## The common paper record

A Python dict with a possibly-absent key is modelled with an outer
`Option` (`none` = key absent); a present key whose value may be Python
`None` gets an inner `Option`. -/

structure PaperRecord where
  source : String
  title : Option String
  authors : List (Option String)
  abstract : Option String
  publication_date : Option String
  url : String
  id : Option String
  journal : Option (Option String)
  doi : Option (Option String)
  categories : Option (List String)
  affiliations : List String
  deriving Repr, DecidableEq

/-! ## The PreprintRepo (arXiv) normalizer `_parse_arxiv_entry`

Namespaced tags `'{http://www.w3.org/2005/Atom}title'` etc. are
modelled by the prefixed tag strings `"atom:title"` etc. (an injective
renaming).  A result of `none` models the entry being dropped by the
`except` clause (which happens exactly when `.strip()` is called on a
`None` text). -/

/-- Lines 123-124: `title_elem.text.strip() if title_elem is not None
else "No title"`; `.strip()` on `None` raises. -/
def arxivTitle (entry : Xml) : Option String :=
  match findChild "atom:title" entry with
  | none => some "No title"
  | some e => e.text.map pyStrip

/-- Lines 127-132: the author-name loop; a `name` element with `None`
text raises on `.strip()`. -/
def arxivAuthors : List Xml → Option (List String)
  | [] => some []
  | a :: rest =>
    match findChild "atom:name" a with
    | none => arxivAuthors rest
    | some n =>
      match n.text with
      | none => none
      | some t => (arxivAuthors rest).map (fun as => pyStrip t :: as)

/-- Lines 135-136. -/
def arxivAbstract (entry : Xml) : Option String :=
  match findChild "atom:summary" entry with
  | none => some ""
  | some e => e.text.map pyStrip

/-- Lines 139-140. -/
def arxivPublished (entry : Xml) : Option String :=
  match findChild "atom:published" entry with
  | none => some ""
  | some e => e.text.map pyStrip

/-- Lines 143-144. -/
def arxivUrl (entry : Xml) : Option String :=
  match findChild "atom:id" entry with
  | none => some ""
  | some e => e.text.map pyStrip

/-- Python `s.split(sep)` for a one-character separator: split on every
occurrence, keeping empty segments (the result is never empty). -/
def splitOnChar (sep : Char) : List Char → List (List Char)
  | [] => [[]]
  | c :: rest =>
    match splitOnChar sep rest with
    | [] => [[c]]
    | g :: gs => if c = sep then [] :: g :: gs else (c :: g) :: gs

/-- Line 145: `arxiv_url.split('/')[-1] if arxiv_url else ""`. -/
def arxivIdOf (arxiv_url : String) : String :=
  if arxiv_url = "" then ""
  else String.mk ((splitOnChar '/' arxiv_url.data).getLastD [])

/-- Lines 148-153: category terms, skipping empty `term` attributes. -/
def arxivCategories (entry : Xml) : List String :=
  (findChildren "atom:category" entry).filterMap (fun c =>
    let term := c.get "term" ""
    if term = "" then none else some term)

/-- `_parse_arxiv_entry` (lines 118-169). -/
def _parse_arxiv_entry (entry : Xml) : Option PaperRecord :=
  (arxivTitle entry).bind fun title =>
  (arxivAuthors (findChildren "atom:author" entry)).bind fun authors =>
  (arxivAbstract entry).bind fun abstract =>
  (arxivPublished entry).bind fun pub_date =>
  (arxivUrl entry).bind fun arxiv_url =>
  some
    { source := "arXiv"
      title := some title
      authors := authors.map some
      abstract := some abstract
      publication_date := some pub_date
      url := arxiv_url
      id := some (arxivIdOf arxiv_url)
      journal := none
      doi := none
      categories := some (arxivCategories entry)
      affiliations := [] }

/-! ## The CitationDB (PubMed) normalizer `_parse_pubmed_article` -/

/-- Lines 256-257: `title_elem.text if title_elem is not None else
"No title"`.  Note a present element with `None` text yields `None`. -/
def pubmedTitle (article : Xml) : Option String :=
  match findDesc "ArticleTitle" article with
  | none => some "No title"
  | some e => e.text

/-- Lines 267-274: the author name.  `author_name` starts as
`lastname.text` (possibly `None`); when a `ForeName` child exists the
f-string renders both texts, printing `None` for absent text. -/
def pubmedAuthorName (author lastname : Xml) : Option String :=
  match findChild "ForeName" author with
  | none => lastname.text
  | some f => some (pyToStr f.text ++ " " ++ pyToStr lastname.text)

/-- Lines 277-281: the affiliation strings of one author element: the
`Affiliation` children of its first `AffiliationInfo` child whose text
is truthy (neither `None` nor empty). -/
def pubmedAffils (author : Xml) : List String :=
  match findChild "AffiliationInfo" author with
  | none => []
  | some ai =>
    (findChildren "Affiliation" ai).filterMap (fun e =>
      match e.text with
      | some t => if t = "" then none else some t
      | none => none)

/-- Lines 264-281: the author loop.  The name is appended only under
`if lastname is not None`, but the affiliation collection is outside
that guard and runs for every author element. -/
def pubmedAuthorsAffils : List Xml → List (Option String) × List String
  | [] => ([], [])
  | a :: rest =>
    let acc := pubmedAuthorsAffils rest
    match findChild "LastName" a with
    | none => (acc.1, pubmedAffils a ++ acc.2)
    | some l => (pubmedAuthorName a l :: acc.1, pubmedAffils a ++ acc.2)

/-- Lines 262-265: the author elements iterated (children `Author` of
the first descendant `AuthorList`, when present). -/
def pubmedAuthorElems (article : Xml) : List Xml :=
  match findDesc "AuthorList" article with
  | none => []
  | some al => findChildren "Author" al

/-- Lines 284-285: `article.find('.//Abstract/AbstractText')`. -/
def pubmedAbstract (article : Xml) : Option String :=
  match ((findAllDesc "Abstract" article).flatMap (findChildren "AbstractText")).head? with
  | none => some ""
  | some e => e.text

/-- Lines 288-300: the publication date.  The outer `Option` models the
`except` clause: `pub_date` becomes Python `None` when `Year` has no
text, and the subsequent `pub_date += ...` raises `TypeError` when a
`Month` element is also present, dropping the article. -/
def pubmedPubDate (article : Xml) : Option (Option String) :=
  match findDesc "PubDate" article with
  | none => some (some "")
  | some pd =>
    match findChild "Year" pd with
    | none => some (some "")
    | some y =>
      match y.text with
      | none =>
        match findChild "Month" pd with
        | some _ => none
        | none => some none
      | some ys =>
        match findChild "Month" pd with
        | none => some (some ys)
        | some m =>
          match findChild "Day" pd with
          | none => some (some (ys ++ "-" ++ pyToStr m.text))
          | some d => some (some (ys ++ "-" ++ pyToStr m.text ++ "-" ++ pyToStr d.text))

/-- Lines 303-304. -/
def pubmedPmid (article : Xml) : Option String :=
  match findDesc "PMID" article with
  | none => some ""
  | some e => e.text

/-- Lines 307-308: first descendant `ELocationID` carrying the
attribute `EIdType="doi"`. -/
def pubmedDoi (article : Xml) : Option String :=
  match ((findAllDesc "ELocationID" article).filter
      (fun e => e.attrs.lookup "EIdType" == some "doi")).head? with
  | none => some ""
  | some e => e.text

/-- Lines 311-312: `article.find('.//Journal/Title')`. -/
def pubmedJournal (article : Xml) : Option String :=
  match ((findAllDesc "Journal" article).flatMap (findChildren "Title")).head? with
  | none => some ""
  | some e => e.text

/-- Line 320: `f"https://pubmed.ncbi.nlm.nih.gov/{pmid}/" if pmid else
""` — both `None` and the empty string are falsy. -/
def pubmedUrl (pmid : Option String) : String :=
  match pmid with
  | none => ""
  | some s => if s = "" then "" else "https://pubmed.ncbi.nlm.nih.gov/" ++ s ++ "/"

/-- `_parse_pubmed_article` (lines 252-329).  Only the date computation
can raise inside the `try`; every other step is total. -/
def _parse_pubmed_article (article : Xml) : Option PaperRecord :=
  (pubmedPubDate article).map (fun pub_date =>
    let aa := pubmedAuthorsAffils (pubmedAuthorElems article)
    { source := "PubMed"
      title := pubmedTitle article
      authors := aa.1
      abstract := pubmedAbstract article
      publication_date := pub_date
      url := pubmedUrl (pubmedPmid article)
      id := pubmedPmid article
      journal := some (pubmedJournal article)
      doi := some (pubmedDoi article)
      categories := none
      affiliations := aa.2 })

/-! ## The filter `filter_pharma_biotech_papers` -/

/-- The fallback keyword list of the arXiv branch (lines 348-349). -/
def arxiv_fallback_keywords : List String :=
  ["pharmaceutical", "biotech", "drug discovery", "therapeutics",
   "clinical trial", "medicine", "pharma", "biopharma"]

/-- The per-paper decision of `filter_pharma_biotech_papers`
(lines 335-352).  The records built by the two normalizers always carry
the `affiliations` key, so `'affiliations' in paper and
paper['affiliations']` followed by the classify loop is `List.any`; the
title/abstract fallback runs only for `source == 'arXiv'` records not
already accepted, on `f"{title} {abstract}".lower()`. -/
def keepPaper (paper : PaperRecord) : Bool :=
  if paper.affiliations.any is_pharma_biotech_affiliation then true
  else if paper.source == "arXiv" then
    arxiv_fallback_keywords.any (fun keyword =>
      containsSub keyword (lowerStr (pyToStr paper.title ++ " " ++ pyToStr paper.abstract)))
  else false

/-- `filter_pharma_biotech_papers` (lines 331-357). -/
def filter_pharma_biotech_papers (papers : List PaperRecord) : List PaperRecord :=
  papers.filter keepPaper

/-! ## The PubMed fetch stage `fetch_pubmed_papers`

Network I/O is abstracted: the search response contributes only its
identifier list (`none` models a response JSON missing the
`esearchresult`/`idlist` keys), and the detail stage is a parameter.
The second component of the result records the identifier batches for
which a detail-fetch call was issued. -/

/-- Line 204-206: `range(0, len(paper_ids), batch_size)` slicing with
`batch_size = 20`. -/
def batches20 : List String → List (List String)
  | [] => []
  | a :: rest => (a :: rest).take 20 :: batches20 (rest.drop 19)
termination_by l => l.length
decreasing_by
  simp only [List.length_cons, List.length_drop]
  omega

/-- `fetch_pubmed_papers` (lines 171-218), with the two network stages
abstracted.  Returns the collected papers together with the list of
detail-call batches issued. -/
def fetch_pubmed_papers (idlist : Option (List String))
    (fetchDetails : List String → List PaperRecord) :
    List PaperRecord × List (List String) :=
  match idlist with
  | none => ([], [])
  | some paper_ids =>
    if paper_ids = [] then ([], [])
    else
      let bs := batches20 paper_ids
      ((bs.map fetchDetails).flatten, bs)

/-! ## The CSV export `save_to_csv` -/

/-- Line 367-370. -/
def fieldnames : List String :=
  ["source", "title", "authors", "abstract", "publication_date",
   "url", "id", "journal", "doi", "affiliations", "categories"]

/-- Python `'; '.join(l)` over a list that may contain `None`: raises
`TypeError` (modelled `none`) when any element is `None`. -/
def joinPy (sep : String) : List (Option String) → Option String
  | [] => some ""
  | none :: _ => none
  | some s :: rest =>
    match rest with
    | [] => some s
    | _ :: _ => (joinPy sep rest).map (fun r => s ++ sep ++ r)

/-- How the `csv` module renders a scalar cell: Python `None` becomes
the empty cell. -/
def pyNoneCell : Option String → String
  | none => ""
  | some s => s

/-- One cell of the row loop (lines 380-388): a key present with a list
value is joined with `"; "`, a present scalar is written as-is (`None`
rendering empty), an absent key yields `''`.  `none` models the
uncaught `TypeError` from joining a list containing `None`. -/
def cellOf (r : PaperRecord) (field : String) : Option String :=
  if field = "source" then some r.source
  else if field = "title" then some (pyNoneCell r.title)
  else if field = "authors" then joinPy "; " r.authors
  else if field = "abstract" then some (pyNoneCell r.abstract)
  else if field = "publication_date" then some (pyNoneCell r.publication_date)
  else if field = "url" then some r.url
  else if field = "id" then some (pyNoneCell r.id)
  else if field = "journal" then
    some (match r.journal with
      | none => ""
      | some j => pyNoneCell j)
  else if field = "doi" then
    some (match r.doi with
      | none => ""
      | some d => pyNoneCell d)
  else if field = "affiliations" then some (String.intercalate "; " r.affiliations)
  else if field = "categories" then
    some (match r.categories with
      | none => ""
      | some cs => String.intercalate "; " cs)
  else some ""

/-- The cells of the fields in `fields` order, `none` on the first
raising cell. -/
def rowCells (r : PaperRecord) : List String → Option (List String)
  | [] => some []
  | f :: fs =>
    match cellOf r f with
    | none => none
    | some c => (rowCells r fs).map (fun cs => c :: cs)

/-- The full CSV row written for one record by `save_to_csv`
(lines 376-390), in `fieldnames` order. -/
def rowOf (r : PaperRecord) : Option (List String) := rowCells r fieldnames

/-! ## Shared helper lemmas -/

/-- Helper: the vocabulary tier alone forces a `true` classification. -/
theorem classify_of_vocab_any (a : String)
    (h : pharma_biotech_companies.any
        (fun company => containsSub company (lowerStr a)) = true) :
    is_pharma_biotech_affiliation a = true := by
  have hne : a ≠ "" := by
    intro he
    rw [he] at h
    have hf : pharma_biotech_companies.any
        (fun company => containsSub company (lowerStr "")) = false := by decide
    rw [hf] at h
    exact Bool.false_ne_true h
  unfold is_pharma_biotech_affiliation
  simp only [if_neg hne, h, if_pos]

/-- C6: for every affiliation text whose lower-cased form contains some
entry of the fixed vocabulary set as a substring, the classifier
`is_pharma_biotech_affiliation` returns true, regardless of the letter
case of the input (the test is on the lower-cased text). -/
theorem classify_vocab_substring_true (a : String)
    (h : pharma_biotech_companies.any
        (fun company => containsSub company (lowerStr a)) = true) :
    is_pharma_biotech_affiliation a = true :=
  classify_of_vocab_any a h

theorem classify_vocab_substring_true_witness :
    pharma_biotech_companies.any
        (fun company => containsSub company (lowerStr "PFIZER Research Laboratories")) = true ∧
    is_pharma_biotech_affiliation "PFIZER Research Laboratories" = true :=
  ⟨by decide, classify_vocab_substring_true "PFIZER Research Laboratories" (by decide)⟩

/-- C10: every text containing "bd" as a case-insensitive substring is
classified true by `is_pharma_biotech_affiliation`, because the
vocabulary set contains the bare two-letter entry "bd" matched without
word boundaries; e.g. an affiliation containing "Abdominal" qualifies. -/
theorem classify_bd_substring_true (a : String)
    (h : containsSub "bd" (lowerStr a) = true) :
    is_pharma_biotech_affiliation a = true := by
  apply classify_of_vocab_any
  rw [List.any_eq_true]
  exact ⟨"bd", by decide, h⟩

theorem classify_bd_substring_true_witness :
    containsSub "bd" (lowerStr "Department of Abdominal Imaging") = true ∧
    is_pharma_biotech_affiliation "Department of Abdominal Imaging" = true :=
  ⟨by decide, classify_bd_substring_true "Department of Abdominal Imaging" (by decide)⟩

/-- C2 counterexample: "Pfizer Inc" matches the corporate-suffix pattern
`\binc\.?\b` and its lower-cased form contains no secondary keyword,
yet the classifier returns true (the vocabulary tier fires on
"pfizer" before the pattern tier is consulted), refuting the claim
that all such texts are classified false. -/
theorem classify_pattern_no_keyword_cex :
    is_pharma_biotech_affiliation "Pfizer Inc" = true ∧
    company_patterns.any (fun pat => pat (lowerStr "Pfizer Inc")) = true ∧
    secondary_keywords.any
        (fun keyword => containsSub keyword (lowerStr "Pfizer Inc")) = false :=
  ⟨by decide, by decide, by decide⟩

/-- C2 (amended): for every affiliation text that matches at least one
corporate-suffix pattern but whose lower-cased form contains none of
the secondary keywords AND none of the vocabulary entries as a
substring, `is_pharma_biotech_affiliation` returns false; in
particular it returns false on "Acme Corp". -/
theorem classify_pattern_no_keyword_no_vocab_false (a : String)
    (hp : company_patterns.any (fun pat => pat (lowerStr a)) = true)
    (hk : secondary_keywords.any
        (fun keyword => containsSub keyword (lowerStr a)) = false)
    (hv : pharma_biotech_companies.any
        (fun company => containsSub company (lowerStr a)) = false) :
    is_pharma_biotech_affiliation a = false := by
  by_cases he : a = ""
  · unfold is_pharma_biotech_affiliation
    rw [if_pos he]
  · unfold is_pharma_biotech_affiliation
    rw [if_neg he]
    have h2 : company_patterns.any (fun pat =>
        pat (lowerStr a) && secondary_keywords.any
          (fun keyword => containsSub keyword (lowerStr a))) = false := by
      rw [hk]
      simp
    simp only [hv, h2, Bool.false_eq_true, if_neg, if_false]

theorem classify_pattern_no_keyword_no_vocab_false_witness :
    company_patterns.any (fun pat => pat (lowerStr "Acme Corp")) = true ∧
    is_pharma_biotech_affiliation "Acme Corp" = false :=
  ⟨by decide,
    classify_pattern_no_keyword_no_vocab_false "Acme Corp" (by decide) (by decide) (by decide)⟩

/-- C1: records with source "PubMed" are retained by the filter exactly
when some affiliation entry is classified true — their title and
abstract are never consulted; records with source "arXiv" and no
classified-true affiliation entry are retained exactly when the
lower-cased (space-joined) concatenation of title and abstract
contains one of the fixed fallback keywords as a substring; and
membership in the filtered list is exactly membership in the input
plus the per-record decision. -/
theorem filter_source_asymmetry :
    (∀ p : PaperRecord, p.source = "PubMed" →
        keepPaper p = p.affiliations.any is_pharma_biotech_affiliation) ∧
    (∀ p : PaperRecord, p.source = "arXiv" →
        p.affiliations.any is_pharma_biotech_affiliation = false →
        keepPaper p = arxiv_fallback_keywords.any (fun keyword =>
          containsSub keyword
            (lowerStr (pyToStr p.title ++ " " ++ pyToStr p.abstract)))) ∧
    (∀ (papers : List PaperRecord) (p : PaperRecord),
        p ∈ filter_pharma_biotech_papers papers ↔
          p ∈ papers ∧ keepPaper p = true) := by
  refine ⟨?_, ?_, ?_⟩
  · intro p hs
    unfold keepPaper
    rw [hs]
    cases hA : p.affiliations.any is_pharma_biotech_affiliation <;> simp
  · intro p hs hA
    unfold keepPaper
    rw [hs, hA]
    simp
  · intro papers p
    unfold filter_pharma_biotech_papers
    exact List.mem_filter

/-- A PubMed record whose affiliations do not qualify but whose title and
abstract are saturated with pharma terms. -/
def c1_pubmed_rec : PaperRecord :=
  { source := "PubMed"
    title := some "Pharma biotech drug discovery in clinical trials"
    authors := [some "Jane Doe"]
    abstract := some "therapeutics medicine biopharma pharmaceutical"
    publication_date := some "2024"
    url := ""
    id := some "1"
    journal := some (some "J")
    doi := some (some "")
    categories := none
    affiliations := ["Harvard University, Cambridge, MA"] }

/-- An arXiv record with no affiliations and a fallback keyword in its
abstract. -/
def c1_arxiv_rec : PaperRecord :=
  { source := "arXiv"
    title := some "A study"
    authors := [some "John Smith"]
    abstract := some "We analyse clinical trial outcomes."
    publication_date := some "2024-01-01"
    url := ""
    id := some "2401.0001"
    journal := none
    doi := none
    categories := some ["q-bio.QM"]
    affiliations := [] }

theorem filter_source_asymmetry_witness :
    keepPaper c1_pubmed_rec = false ∧ keepPaper c1_arxiv_rec = true := by
  constructor
  · have h := filter_source_asymmetry.1 c1_pubmed_rec rfl
    rw [h]
    decide
  · have h := filter_source_asymmetry.2.1 c1_arxiv_rec rfl (by decide)
    rw [h]
    decide

/-- Helper: inversion of a successful arXiv parse. -/
theorem parse_arxiv_inv (e : Xml) (r : PaperRecord)
    (h : _parse_arxiv_entry e = some r) :
    ∃ title authors abstract pub_date arxiv_url,
      arxivTitle e = some title ∧
      arxivAuthors (findChildren "atom:author" e) = some authors ∧
      arxivAbstract e = some abstract ∧
      arxivPublished e = some pub_date ∧
      arxivUrl e = some arxiv_url ∧
      r = { source := "arXiv", title := some title, authors := authors.map some,
            abstract := some abstract, publication_date := some pub_date,
            url := arxiv_url, id := some (arxivIdOf arxiv_url), journal := none,
            doi := none, categories := some (arxivCategories e),
            affiliations := [] } := by
  unfold _parse_arxiv_entry at h
  simp only [Option.bind_eq_some, Option.some.injEq] at h
  obtain ⟨t, ht, as, has, ab, hab, pd, hpd, u, hu, hr⟩ := h
  exact ⟨t, as, ab, pd, u, ht, has, hab, hpd, hu, hr.symm⟩

/-- Helper: inversion of a successful PubMed parse. -/
theorem parse_pubmed_inv (a : Xml) (r : PaperRecord)
    (h : _parse_pubmed_article a = some r) :
    ∃ pub_date, pubmedPubDate a = some pub_date ∧
      r = { source := "PubMed", title := pubmedTitle a,
            authors := (pubmedAuthorsAffils (pubmedAuthorElems a)).1,
            abstract := pubmedAbstract a, publication_date := pub_date,
            url := pubmedUrl (pubmedPmid a), id := pubmedPmid a,
            journal := some (pubmedJournal a), doi := some (pubmedDoi a),
            categories := none,
            affiliations := (pubmedAuthorsAffils (pubmedAuthorElems a)).2 } := by
  unfold _parse_pubmed_article at h
  simp only [Option.map_eq_some'] at h
  obtain ⟨pd, hpd, hr⟩ := h
  exact ⟨pd, hpd, hr.symm⟩

/-- The C3 counterexample input: an article whose single author element
has no LastName child but carries an affiliation. -/
def c3_article : Xml :=
  .node "PubmedArticle" [] none
    [ .node "ArticleTitle" [] (some "T") [],
      .node "AuthorList" [] none
        [ .node "Author" [] none
            [ .node "AffiliationInfo" [] none
                [ .node "Affiliation" [] (some "Pfizer Inc, New York, NY") [] ] ] ] ]

/-- C3 counterexample: parsing an article whose only author element has
no LastName child produces a record with an empty authors sequence but
with that author's affiliation string collected — the author is NOT
skipped entirely, refuting the claim that it contributes nothing. -/
theorem pubmed_author_no_lastname_cex :
    (_parse_pubmed_article c3_article).map (fun r => (r.authors, r.affiliations)) =
      some ([], ["Pfizer Inc, New York, NY"]) := by decide

/-- C3 (amended): in the CitationDB author loop, an author element with
no LastName child contributes no entry to the authors sequence, but
the affiliation strings under its first AffiliationInfo child ARE
still collected; an author with a LastName contributes its display
name and likewise the affiliation strings under its first
AffiliationInfo child; the produced record carries exactly the
sequences the loop accumulates. -/
theorem pubmed_author_contribution :
    (∀ (a : Xml) (rest : List Xml), findChild "LastName" a = none →
        pubmedAuthorsAffils (a :: rest) =
          ((pubmedAuthorsAffils rest).1,
           pubmedAffils a ++ (pubmedAuthorsAffils rest).2)) ∧
    (∀ (a l : Xml) (rest : List Xml), findChild "LastName" a = some l →
        pubmedAuthorsAffils (a :: rest) =
          (pubmedAuthorName a l :: (pubmedAuthorsAffils rest).1,
           pubmedAffils a ++ (pubmedAuthorsAffils rest).2)) ∧
    (∀ (article : Xml) (r : PaperRecord), _parse_pubmed_article article = some r →
        r.authors = (pubmedAuthorsAffils (pubmedAuthorElems article)).1 ∧
        r.affiliations = (pubmedAuthorsAffils (pubmedAuthorElems article)).2) := by
  refine ⟨?_, ?_, ?_⟩
  · intro a rest h
    conv_lhs => rw [pubmedAuthorsAffils]
    rw [h]
  · intro a l rest h
    conv_lhs => rw [pubmedAuthorsAffils]
    rw [h]
  · intro article r h
    obtain ⟨pd, _, hr⟩ := parse_pubmed_inv article r h
    rw [hr]
    exact ⟨rfl, rfl⟩

/-- A single author element with no LastName child, used to exercise the
amended C3 statement. -/
def c3w_author : Xml :=
  .node "Author" [] none
    [ .node "AffiliationInfo" [] none
        [ .node "Affiliation" [] (some "Moderna, Cambridge") [] ] ]

theorem pubmed_author_contribution_witness :
    pubmedAuthorsAffils [c3w_author] = ([], ["Moderna, Cambridge"]) := by
  have h := pubmed_author_contribution.1 c3w_author [] rfl
  rw [h]
  decide

/-- The C4 counterexample input: an article with an ArticleTitle element
that carries no text. -/
def c4_article : Xml :=
  .node "PubmedArticle" [] none [ .node "ArticleTitle" [] none [] ]

/-- C4 counterexample: a CitationDB article whose ArticleTitle element is
present but carries no text yields a produced record whose title is
Python `None` — not the placeholder "No title" — refuting the claim
that every produced record has a non-null title. -/
theorem pubmed_empty_title_null_cex :
    (_parse_pubmed_article c4_article).map PaperRecord.title = some none := by decide

/-- An arXiv entry with no title element, used to exercise C4. -/
def c4w_entry : Xml := .node "entry" [] none []

/-- The record the arXiv normalizer produces for `c4w_entry`. -/
def c4w_rec : PaperRecord :=
  { source := "arXiv", title := some "No title", authors := [], abstract := some "",
    publication_date := some "", url := "", id := some "", journal := none,
    doi := none, categories := some [], affiliations := [] }

/-- C4 (amended): every record the PreprintRepo normalizer produces has a
non-null (present string) title, and when the entry lacks a title
element that title is the placeholder "No title"; the CitationDB
normalizer likewise produces "No title" when the article has no
ArticleTitle element, but an ArticleTitle element present with no text
yields a record whose title is null. -/
theorem normalizer_title_presence :
    (∀ (e : Xml) (r : PaperRecord), _parse_arxiv_entry e = some r →
        ∃ t, r.title = some t) ∧
    (∀ (e : Xml) (r : PaperRecord), findChild "atom:title" e = none →
        _parse_arxiv_entry e = some r → r.title = some "No title") ∧
    (∀ (a : Xml) (r : PaperRecord), findDesc "ArticleTitle" a = none →
        _parse_pubmed_article a = some r → r.title = some "No title") ∧
    (∀ (a tElem : Xml) (r : PaperRecord), findDesc "ArticleTitle" a = some tElem →
        tElem.text = none →
        _parse_pubmed_article a = some r → r.title = none) := by
  refine ⟨?_, ?_, ?_, ?_⟩
  · intro e r h
    obtain ⟨t, _, _, _, _, _, _, _, _, _, hr⟩ := parse_arxiv_inv e r h
    exact ⟨t, by rw [hr]⟩
  · intro e r hnone h
    obtain ⟨t, _, _, _, _, ht, _, _, _, _, hr⟩ := parse_arxiv_inv e r h
    rw [hr]
    unfold arxivTitle at ht
    rw [hnone] at ht
    rw [(Option.some.injEq _ _).mp ht]
  · intro a r hnone h
    obtain ⟨pd, _, hr⟩ := parse_pubmed_inv a r h
    rw [hr]
    show pubmedTitle a = some "No title"
    unfold pubmedTitle
    rw [hnone]
  · intro a tElem r hsome htext h
    obtain ⟨pd, _, hr⟩ := parse_pubmed_inv a r h
    rw [hr]
    show pubmedTitle a = none
    unfold pubmedTitle
    rw [hsome]
    exact htext

theorem normalizer_title_presence_witness :
    _parse_arxiv_entry c4w_entry = some c4w_rec ∧
    c4w_rec.title = some "No title" := by
  have hp : _parse_arxiv_entry c4w_entry = some c4w_rec := by decide
  exact ⟨hp, normalizer_title_presence.2.1 c4w_entry c4w_rec rfl hp⟩

/-! ## Evaluation lemmas for the CSV cells -/

theorem cellOf_source (r : PaperRecord) : cellOf r "source" = some r.source := rfl

theorem cellOf_title (r : PaperRecord) :
    cellOf r "title" = some (pyNoneCell r.title) := rfl

theorem cellOf_authors (r : PaperRecord) :
    cellOf r "authors" = joinPy "; " r.authors := rfl

theorem cellOf_abstract (r : PaperRecord) :
    cellOf r "abstract" = some (pyNoneCell r.abstract) := rfl

theorem cellOf_publication_date (r : PaperRecord) :
    cellOf r "publication_date" = some (pyNoneCell r.publication_date) := rfl

theorem cellOf_url (r : PaperRecord) : cellOf r "url" = some r.url := rfl

theorem cellOf_id (r : PaperRecord) : cellOf r "id" = some (pyNoneCell r.id) := rfl

theorem cellOf_journal (r : PaperRecord) :
    cellOf r "journal" = some (match r.journal with
      | none => ""
      | some j => pyNoneCell j) := rfl

theorem cellOf_doi (r : PaperRecord) :
    cellOf r "doi" = some (match r.doi with
      | none => ""
      | some d => pyNoneCell d) := rfl

theorem cellOf_affils (r : PaperRecord) :
    cellOf r "affiliations" = some (String.intercalate "; " r.affiliations) := rfl

theorem cellOf_categories (r : PaperRecord) :
    cellOf r "categories" = some (match r.categories with
      | none => ""
      | some cs => String.intercalate "; " cs) := rfl

/-- The C5 counterexample inputs: a well-formed arXiv entry and PubMed
article. -/
def c5_entry : Xml :=
  .node "entry" [] none
    [ .node "atom:title" [] (some "Sample") [],
      .node "atom:summary" [] (some "About clinical trial work") [],
      .node "atom:id" [] (some "http://arxiv.org/abs/2401.00001v1") [] ]

def c5_article : Xml :=
  .node "PubmedArticle" [] none
    [ .node "ArticleTitle" [] (some "Sample") [],
      .node "PMID" [] (some "12345") [] ]

/-- C5 counterexample: the records the normalizers produce do NOT carry
the full uniform field set — the arXiv normalizer omits the journal
and doi keys entirely (modelled by the outer `Option` being `none`)
and the PubMed normalizer omits the categories key — refuting the
claim that inapplicable fields are present with an empty value. -/
theorem record_field_omission_cex :
    (_parse_arxiv_entry c5_entry).map (fun r => (r.journal, r.doi)) =
      some (none, none) ∧
    (_parse_pubmed_article c5_article).map PaperRecord.categories = some none := by
  exact ⟨by decide, by decide⟩

/-- C5 (amended): fields not applicable to a source are omitted from the
produced record rather than present with an empty value (journal and
doi are absent from every PreprintRepo record, categories from every
CitationDB record, while the applicable counterparts are present);
the export stage writes an empty cell for an omitted field, so the
exported column set is nevertheless uniform. -/
theorem record_field_omission :
    (∀ (e : Xml) (r : PaperRecord), _parse_arxiv_entry e = some r →
        r.journal = none ∧ r.doi = none ∧ ∃ cs, r.categories = some cs) ∧
    (∀ (a : Xml) (r : PaperRecord), _parse_pubmed_article a = some r →
        r.categories = none ∧ (∃ j, r.journal = some j) ∧ ∃ d, r.doi = some d) ∧
    (∀ r : PaperRecord, r.journal = none → cellOf r "journal" = some "") ∧
    (∀ r : PaperRecord, r.doi = none → cellOf r "doi" = some "") ∧
    (∀ r : PaperRecord, r.categories = none → cellOf r "categories" = some "") := by
  refine ⟨?_, ?_, ?_, ?_, ?_⟩
  · intro e r h
    obtain ⟨t, _, _, _, _, _, _, _, _, _, hr⟩ := parse_arxiv_inv e r h
    rw [hr]
    exact ⟨rfl, rfl, arxivCategories e, rfl⟩
  · intro a r h
    obtain ⟨pd, _, hr⟩ := parse_pubmed_inv a r h
    rw [hr]
    exact ⟨rfl, ⟨pubmedJournal a, rfl⟩, ⟨pubmedDoi a, rfl⟩⟩
  · intro r h
    rw [cellOf_journal, h]
  · intro r h
    rw [cellOf_doi, h]
  · intro r h
    rw [cellOf_categories, h]

/-- The record the arXiv normalizer produces for `c5_entry`. -/
def c5w_rec : PaperRecord :=
  { source := "arXiv", title := some "Sample", authors := [],
    abstract := some "About clinical trial work",
    publication_date := some "", url := "http://arxiv.org/abs/2401.00001v1",
    id := some "2401.00001v1", journal := none, doi := none,
    categories := some [], affiliations := [] }

theorem record_field_omission_witness :
    _parse_arxiv_entry c5_entry = some c5w_rec ∧
    c5w_rec.journal = none ∧
    cellOf c5w_rec "journal" = some "" := by
  have hp : _parse_arxiv_entry c5_entry = some c5w_rec := by decide
  have hj : c5w_rec.journal = none := (record_field_omission.1 c5_entry c5w_rec hp).1
  exact ⟨hp, hj, record_field_omission.2.2.1 c5w_rec hj⟩

/-- C7: the CitationDB normalizer builds publication_date by joining the
Year text, then the Month if a Month element is present, then the Day
if a Day element is present, with hyphens, stopping at the first
absent component: Year, Month and Day present yields "YYYY-MM-DD",
only Year present yields "YYYY", and an absent Year element yields the
empty string even if Month or Day elements are present (they are only
read under the Year branch); the produced record carries exactly this
value. -/
theorem pubmed_publication_date_format :
    (∀ (article pd y m d : Xml) (ys ms ds : String),
        findDesc "PubDate" article = some pd →
        findChild "Year" pd = some y → y.text = some ys →
        findChild "Month" pd = some m → m.text = some ms →
        findChild "Day" pd = some d → d.text = some ds →
        pubmedPubDate article = some (some (ys ++ "-" ++ ms ++ "-" ++ ds))) ∧
    (∀ (article pd y : Xml) (ys : String),
        findDesc "PubDate" article = some pd →
        findChild "Year" pd = some y → y.text = some ys →
        findChild "Month" pd = none →
        pubmedPubDate article = some (some ys)) ∧
    (∀ (article pd : Xml),
        findDesc "PubDate" article = some pd →
        findChild "Year" pd = none →
        pubmedPubDate article = some (some "")) ∧
    (∀ (article : Xml) (v : Option String) (r : PaperRecord),
        pubmedPubDate article = some v →
        _parse_pubmed_article article = some r →
        r.publication_date = v) := by
  refine ⟨?_, ?_, ?_, ?_⟩
  · intro article pd y m d ys ms ds hpd hy hyt hm hmt hd hdt
    simp only [pubmedPubDate, hpd, hy, hyt, hm, hmt, hd, hdt, pyToStr]
  · intro article pd y ys hpd hy hyt hm
    simp only [pubmedPubDate, hpd, hy, hyt, hm]
  · intro article pd hpd hy
    simp only [pubmedPubDate, hpd, hy]
  · intro article v r hv h
    obtain ⟨pd, hpd, hr⟩ := parse_pubmed_inv article r h
    rw [hr]
    show pd = v
    rw [hv] at hpd
    exact (Option.some.injEq _ _).mp hpd.symm

/-- Date elements for the C7 witness. -/
def c7_year : Xml := .node "Year" [] (some "2023") []

def c7_month : Xml := .node "Month" [] (some "07") []

def c7_day : Xml := .node "Day" [] (some "15") []

def c7_pd : Xml := .node "PubDate" [] none [c7_year, c7_month, c7_day]

def c7_article : Xml := .node "PubmedArticle" [] none [c7_pd]

theorem pubmed_publication_date_format_witness :
    pubmedPubDate c7_article = some (some "2023-07-15") := by
  have h := pubmed_publication_date_format.1 c7_article c7_pd c7_year c7_month
    c7_day "2023" "07" "15" rfl rfl rfl rfl rfl rfl rfl
  rw [h]
  rfl

/-- C8: the exported header and every row use exactly the column order
source, title, authors, abstract, publication_date, url, id, journal,
doi, affiliations, categories; every sequence-valued cell is the
"; "-join of its elements in order; in particular a record with
authors ["Jane Doe", "John Smith"] exports the authors cell
"Jane Doe; John Smith". -/
theorem csv_row_serialization :
    fieldnames = ["source", "title", "authors", "abstract", "publication_date",
      "url", "id", "journal", "doi", "affiliations", "categories"] ∧
    (∀ (r : PaperRecord) (row : List String), rowOf r = some row →
        ∃ acell, joinPy "; " r.authors = some acell ∧
          row = [r.source, pyNoneCell r.title, acell, pyNoneCell r.abstract,
            pyNoneCell r.publication_date, r.url, pyNoneCell r.id,
            (match r.journal with
              | none => ""
              | some j => pyNoneCell j),
            (match r.doi with
              | none => ""
              | some d => pyNoneCell d),
            String.intercalate "; " r.affiliations,
            (match r.categories with
              | none => ""
              | some cs => String.intercalate "; " cs)]) ∧
    (∀ r : PaperRecord, r.authors = [some "Jane Doe", some "John Smith"] →
        cellOf r "authors" = some "Jane Doe; John Smith") := by
  refine ⟨rfl, ?_, ?_⟩
  · intro r row h
    unfold rowOf fieldnames at h
    cases hA : joinPy "; " r.authors with
    | none =>
      simp only [rowCells, cellOf_source, cellOf_title, cellOf_authors,
        cellOf_abstract, cellOf_publication_date, cellOf_url, cellOf_id,
        cellOf_journal, cellOf_doi, cellOf_affils, cellOf_categories, hA,
        Option.map_none'] at h
      exact Option.noConfusion h
    | some acell =>
      refine ⟨acell, rfl, ?_⟩
      simp only [rowCells, cellOf_source, cellOf_title, cellOf_authors,
        cellOf_abstract, cellOf_publication_date, cellOf_url, cellOf_id,
        cellOf_journal, cellOf_doi, cellOf_affils, cellOf_categories, hA,
        Option.map_some', Option.some.injEq] at h
      exact h.symm
  · intro r h
    rw [cellOf_authors, h]
    rfl

/-- A record with the two example authors, exercising the particular C8
serialization. -/
def c8w_rec : PaperRecord :=
  { source := "PubMed", title := some "T", authors := [some "Jane Doe", some "John Smith"],
    abstract := some "", publication_date := some "2024", url := "", id := some "9",
    journal := some (some ""), doi := some (some ""), categories := none,
    affiliations := [] }

theorem csv_row_serialization_witness :
    cellOf c8w_rec "authors" = some "Jane Doe; John Smith" :=
  csv_row_serialization.2.2 c8w_rec rfl

/-- C9: when the CitationDB search stage yields zero identifiers (or the
response lacks the identifier list entirely), `fetch_pubmed_papers`
returns the empty record sequence, and the list of issued detail-fetch
batches is empty — no detail call is made and no error is raised (the
model is total on this input for every detail stage). -/
theorem pubmed_zero_ids_empty :
    (∀ fetchDetails : List String → List PaperRecord,
        fetch_pubmed_papers (some []) fetchDetails = ([], [])) ∧
    (∀ fetchDetails : List String → List PaperRecord,
        fetch_pubmed_papers none fetchDetails = ([], [])) := by
  constructor
  · intro f
    rfl
  · intro f
    rfl

theorem pubmed_zero_ids_empty_witness :
    fetch_pubmed_papers (some []) (fun _ => []) = ([], []) :=
  pubmed_zero_ids_empty.1 (fun _ => [])
